import Mathlib

/-!
Shallow embedding of `src/Camera/EditorCamera.h` (namespace Flame) over the
real numbers: vectors and matrices are tuples of reals, glm's `normalize`,
`cross`, `lookAt`, `perspective`, `radians` and the trigonometric helpers are
translated literally, and every mutating member function becomes a function
`EditorCamera -> EditorCamera`.
-/

namespace Flame

open Real

noncomputable section

/-- A 2-component real vector, mirroring `glm::vec2`. -/
structure Vec2 where
  x : ℝ
  y : ℝ

/-- A 3-component real vector, mirroring `glm::vec3`. -/
structure Vec3 where
  x : ℝ
  y : ℝ
  z : ℝ
deriving DecidableEq

instance : Add Vec3 := ⟨fun a b => ⟨a.x + b.x, a.y + b.y, a.z + b.z⟩⟩

instance : Sub Vec3 := ⟨fun a b => ⟨a.x - b.x, a.y - b.y, a.z - b.z⟩⟩

instance : Neg Vec3 := ⟨fun a => ⟨-a.x, -a.y, -a.z⟩⟩

/-- Scalar multiplication of a `Vec3`, mirroring glm's `vec3 * float`. -/
def scale (k : ℝ) (v : Vec3) : Vec3 := ⟨k * v.x, k * v.y, k * v.z⟩

/-- Dot product of two `Vec3`, mirroring `glm::dot`. -/
def dot (a b : Vec3) : ℝ := a.x * b.x + a.y * b.y + a.z * b.z

/-- Cross product of two `Vec3`, mirroring `glm::cross`. -/
def cross (a b : Vec3) : Vec3 :=
  ⟨a.y * b.z - a.z * b.y, a.z * b.x - a.x * b.z, a.x * b.y - a.y * b.x⟩

/-- Euclidean length of a `Vec3`, mirroring `glm::length`. -/
def length (v : Vec3) : ℝ := Real.sqrt (dot v v)

/-- Normalization `v / |v|`, mirroring `glm::normalize` (the zero vector is
sent to the zero vector in this real model, standing in for glm's NaN). -/
def normalize (v : Vec3) : Vec3 := scale (length v)⁻¹ v

/-- A 4-component real vector, mirroring `glm::vec4`. -/
structure Vec4 where
  x : ℝ
  y : ℝ
  z : ℝ
  w : ℝ

/-- A 3x3 matrix stored as three columns, mirroring `glm::mat3`. -/
structure Mat3 where
  col0 : Vec3
  col1 : Vec3
  col2 : Vec3

/-- A 4x4 matrix stored as four columns, mirroring `glm::mat4`. -/
structure Mat4 where
  col0 : Vec4
  col1 : Vec4
  col2 : Vec4
  col3 : Vec4

/-- The identity matrix `glm::mat4(1.0f)`. -/
def identity4 : Mat4 :=
  ⟨⟨1, 0, 0, 0⟩, ⟨0, 1, 0, 0⟩, ⟨0, 0, 1, 0⟩, ⟨0, 0, 0, 1⟩⟩

/-- Degrees-to-radians conversion, mirroring `glm::radians`. -/
def radians (x : ℝ) : ℝ := x * (π / 180)

/-- Radians-to-degrees conversion, mirroring `glm::degrees`. -/
def degrees (x : ℝ) : ℝ := x * (180 / π)

/-- Two-argument arctangent with the C `atan2(y, x)` convention
(`atan2 0 0 = 0`). -/
def atan2 (y x : ℝ) : ℝ :=
  if 0 < x then Real.arctan (y / x)
  else if x = 0 then
    (if 0 < y then π / 2 else if y < 0 then -(π / 2) else 0)
  else if 0 ≤ y then Real.arctan (y / x) + π
  else Real.arctan (y / x) - π

/-- Right-handed perspective matrix with [-1,1] clip depth, mirroring
`glm::perspective(fovy, aspect, zNear, zFar)`. -/
def perspective (fovy aspect zNear zFar : ℝ) : Mat4 :=
  let tanHalfFovy := Real.tan (fovy / 2)
  ⟨⟨1 / (aspect * tanHalfFovy), 0, 0, 0⟩,
   ⟨0, 1 / tanHalfFovy, 0, 0⟩,
   ⟨0, 0, -((zFar + zNear) / (zFar - zNear)), -1⟩,
   ⟨0, 0, -((2 * zFar * zNear) / (zFar - zNear)), 0⟩⟩

/-- Right-handed look-at matrix, mirroring `glm::lookAt(eye, center, up)`. -/
def lookAt (eye center upv : Vec3) : Mat4 :=
  let f := normalize (center - eye)
  let s := normalize (cross f upv)
  let u := cross s f
  ⟨⟨s.x, u.x, -f.x, 0⟩,
   ⟨s.y, u.y, -f.y, 0⟩,
   ⟨s.z, u.z, -f.z, 0⟩,
   ⟨-(dot s eye), -(dot u eye), dot f eye, 1⟩⟩

/-- The `CameraMovement` enum. -/
inductive CameraMovement where
  | Forward
  | Backward
  | Left
  | Right
  | Up
  | Down
deriving DecidableEq

/-- Bit value of each enumerator (`Forward = 1 << 0`, ..., `Down = 1 << 5`). -/
def CameraMovement.val : CameraMovement → Nat
  | .Forward => 1
  | .Backward => 2
  | .Left => 4
  | .Right => 8
  | .Up => 16
  | .Down => 32

/-- The `CameraMovementFlags` bitmask wrapper. -/
structure CameraMovementFlags where
  mFlags : Nat
deriving DecidableEq

/-- `CameraMovementFlags::HasFlag`. -/
def CameraMovementFlags.HasFlag (f : CameraMovementFlags) (m : CameraMovement) : Bool :=
  Nat.land f.mFlags m.val != 0

/-- `CameraMovementFlags::SetFlag`. -/
def CameraMovementFlags.SetFlag (f : CameraMovementFlags) (m : CameraMovement) :
    CameraMovementFlags :=
  ⟨Nat.lor f.mFlags m.val⟩

/-- `CameraMovementFlags::ClearAll`. -/
def CameraMovementFlags.ClearAll (_ : CameraMovementFlags) : CameraMovementFlags := ⟨0⟩

/-- The `EditorCameraSpecs` struct.  (`Aspect` models the source field
`AspectRatio`.) -/
structure EditorCameraSpecs where
  Fov : ℝ
  NearClip : ℝ
  FarClip : ℝ
  Aspect : ℝ

/-- Default-initialized `EditorCameraSpecs`: `Fov = glm::radians(45.0f)`,
`NearClip = 0.1f`, `FarClip = 100.0f`, aspect `16/9`. -/
def defaultSpecs : EditorCameraSpecs :=
  ⟨radians 45, 0.1, 100, 16 / 9⟩

/-- The full state of an `EditorCamera` object. -/
structure EditorCamera where
  mCameraSpecs : EditorCameraSpecs
  mPosition : Vec3
  mForwardDirection : Vec3
  mRightDirection : Vec3
  mUpDirection : Vec3
  mYaw : ℝ
  mPitch : ℝ
  mRoll : ℝ
  mMoveSpeed : ℝ
  mRotationSpeed : ℝ
  mLastMouseX : ℝ
  mLastMouseY : ℝ
  mView : Mat4
  mProjection : Mat4

/-- `EditorCamera::UpdateProjection`: note the source applies `glm::radians`
to `mCameraSpecs.Fov` even though the stored default is already in radians. -/
def updateProjection (c : EditorCamera) : EditorCamera :=
  { c with mProjection :=
      (perspective (radians c.mCameraSpecs.Fov) c.mCameraSpecs.Aspect
        c.mCameraSpecs.NearClip c.mCameraSpecs.FarClip) }

/-- `EditorCamera::UpdateView`: re-derives forward/right/up from yaw/pitch and
rebuilds the look-at view matrix. -/
def updateView (c : EditorCamera) : EditorCamera :=
  let f := normalize
    ⟨Real.cos (radians c.mYaw) * Real.cos (radians c.mPitch),
     Real.sin (radians c.mPitch),
     Real.sin (radians c.mYaw) * Real.cos (radians c.mPitch)⟩
  let r := normalize (cross f ⟨0, 1, 0⟩)
  let u := normalize (cross r f)
  { c with
    mForwardDirection := f,
    mRightDirection := r,
    mUpDirection := u,
    mView := (lookAt c.mPosition (c.mPosition + f) u) }

/-- The member initializers of `EditorCamera` (before the constructor body). -/
def initMembers : EditorCamera :=
  { mCameraSpecs := defaultSpecs,
    mPosition := ⟨0, 0, 5⟩,
    mForwardDirection := ⟨0, 0, -1⟩,
    mRightDirection := ⟨1, 0, 0⟩,
    mUpDirection := ⟨0, 1, 0⟩,
    mYaw := -90,
    mPitch := 0,
    mRoll := 0,
    mMoveSpeed := 5,
    mRotationSpeed := 0.1,
    mLastMouseX := 0,
    mLastMouseY := 0,
    mView := identity4,
    mProjection := identity4 }

/-- `EditorCamera::EditorCamera()`: member init, then `UpdateProjection();
UpdateView();`. -/
def initCamera : EditorCamera := updateView (updateProjection initMembers)

/-- `EditorCamera::SetCameraSpec`. -/
def setCameraSpec (specs : EditorCameraSpecs) (c : EditorCamera) : EditorCamera :=
  updateProjection { c with mCameraSpecs := specs }

/-- `EditorCamera::SetPosition`. -/
def setPosition (p : Vec3) (c : EditorCamera) : EditorCamera :=
  updateView { c with mPosition := p }

/-- `EditorCamera::SetOrientation`: stores the (normalized) columns, decomposes
yaw/pitch/roll from raw matrix entries, then recomputes the view. -/
def setOrientation (orientation : Mat3) (c : EditorCamera) : EditorCamera :=
  updateView
    { c with
      mForwardDirection := normalize orientation.col2,
      mRightDirection := normalize orientation.col0,
      mUpDirection := normalize orientation.col1,
      mYaw := degrees (atan2 orientation.col2.x orientation.col2.z),
      mPitch := degrees (Real.arcsin (-orientation.col2.y)),
      mRoll := degrees (atan2 orientation.col0.y orientation.col1.y) }

/-- `EditorCamera::OnUpdate(deltaTime, movementFlags, mousePos, rotate)`.
`deltaTime` is the nanosecond tick count of the `std::chrono::nanoseconds`
argument. -/
def onUpdate (c : EditorCamera) (deltaTime : ℤ) (movementFlags : CameraMovementFlags)
    (mousePos : Vec2) (rotate : Bool) : EditorCamera :=
  let dt : ℝ := (deltaTime : ℝ) / 1000000000
  let speed := c.mMoveSpeed * dt
  let mv0 : Vec3 := ⟨0, 0, 0⟩
  let mv1 := if movementFlags.HasFlag .Forward then mv0 + scale speed c.mForwardDirection else mv0
  let mv2 := if movementFlags.HasFlag .Backward then mv1 - scale speed c.mForwardDirection else mv1
  let mv3 := if movementFlags.HasFlag .Left then mv2 - scale speed c.mRightDirection else mv2
  let mv4 := if movementFlags.HasFlag .Right then mv3 + scale speed c.mRightDirection else mv3
  let mv5 := if movementFlags.HasFlag .Up then mv4 + scale speed c.mUpDirection else mv4
  let mv6 := if movementFlags.HasFlag .Down then mv5 - scale speed c.mUpDirection else mv5
  let c1 := { c with mPosition := c.mPosition + mv6 }
  if rotate then
    let dx := mousePos.x - c1.mLastMouseX
    let dy := mousePos.y - c1.mLastMouseY
    let yaw1 := c1.mYaw + dx * c1.mRotationSpeed
    let pitch1 := c1.mPitch - dy * c1.mRotationSpeed
    let pitch2 := if pitch1 > 89 then 89 else pitch1
    let pitch3 := if pitch2 < -89 then -89 else pitch2
    updateView
      { c1 with
        mYaw := yaw1,
        mPitch := pitch3,
        mLastMouseX := mousePos.x,
        mLastMouseY := mousePos.y }
  else c1

/-- Repeated per-frame updates with `rotate = true`, one per list element
`(deltaTime, flags, mousePos)`. -/
def applyUpdates (c : EditorCamera) (l : List (ℤ × CameraMovementFlags × Vec2)) :
    EditorCamera :=
  l.foldl (fun s p => onUpdate s p.1 p.2.1 p.2.2 true) c

/-- The orthonormal basis that `UpdateView` derives from a yaw/pitch pair (zero
roll): columns are right, up, forward in the `glm::mat3` layout that
`SetOrientation` expects (x-axis, y-axis, z-axis). -/
def basisFromYawPitch (Y P : ℝ) : Mat3 :=
  let f := normalize
    ⟨Real.cos (radians Y) * Real.cos (radians P),
     Real.sin (radians P),
     Real.sin (radians Y) * Real.cos (radians P)⟩
  let r := normalize (cross f ⟨0, 1, 0⟩)
  let u := normalize (cross r f)
  ⟨r, u, f⟩

end

attribute [ext] Vec2 Vec3 Vec4 Mat3 Mat4

/-- Pairwise orthogonality and unit length of a forward/right/up triple. -/
def Orthonormal3 (f r u : Vec3) : Prop :=
  dot f r = 0 ∧ dot f u = 0 ∧ dot r u = 0 ∧
    length f = 1 ∧ length r = 1 ∧ length u = 1

lemma dot_comm (a b : Vec3) : dot a b = dot b a := by
  simp only [dot]; ring

lemma dot_cross_left (a b : Vec3) : dot (cross a b) a = 0 := by
  simp only [dot, cross]; ring

lemma dot_cross_right (a b : Vec3) : dot (cross a b) b = 0 := by
  simp only [dot, cross]; ring

lemma dot_cross_self (a b : Vec3) :
    dot (cross a b) (cross a b) = dot a a * dot b b - dot a b ^ 2 := by
  simp only [dot, cross]; ring

lemma dot_scale_left (k : ℝ) (a b : Vec3) : dot (scale k a) b = k * dot a b := by
  simp only [dot, scale]; ring

lemma dot_scale_right (k : ℝ) (a b : Vec3) : dot a (scale k b) = k * dot a b := by
  simp only [dot, scale]; ring

lemma length_eq_one {v : Vec3} (h : dot v v = 1) : length v = 1 := by
  rw [length, h, Real.sqrt_one]

lemma scale_one (v : Vec3) : scale 1 v = v := by
  simp only [scale, one_mul]

lemma normalize_of_unit {v : Vec3} (h : dot v v = 1) : normalize v = v := by
  rw [normalize, length_eq_one h, inv_one, scale_one]

lemma cos_radians_neg90 : Real.cos (radians (-90)) = 0 := by
  have h : radians (-90) = -(π / 2) := by simp only [radians]; ring
  rw [h, Real.cos_neg, Real.cos_pi_div_two]

lemma sin_radians_neg90 : Real.sin (radians (-90)) = -1 := by
  have h : radians (-90) = -(π / 2) := by simp only [radians]; ring
  rw [h, Real.sin_neg, Real.sin_pi_div_two]

lemma radians_zero : radians 0 = 0 := by
  simp [radians]

lemma radians_ninety : radians 90 = π / 2 := by
  simp only [radians]; ring

lemma basis_orthonormal_aux (cy sy cp sp : ℝ)
    (hy : sy ^ 2 + cy ^ 2 = 1) (hp : sp ^ 2 + cp ^ 2 = 1) (hcp : cp ≠ 0) :
    Orthonormal3 (normalize ⟨cy * cp, sp, sy * cp⟩)
      (normalize (cross (normalize ⟨cy * cp, sp, sy * cp⟩) ⟨0, 1, 0⟩))
      (normalize (cross (normalize (cross (normalize ⟨cy * cp, sp, sy * cp⟩) ⟨0, 1, 0⟩))
        (normalize ⟨cy * cp, sp, sy * cp⟩))) := by
  have hf : normalize ⟨cy * cp, sp, sy * cp⟩ = ⟨cy * cp, sp, sy * cp⟩ := by
    refine normalize_of_unit ?_
    simp only [dot]
    linear_combination cp ^ 2 * hy + hp
  rw [hf]
  have hfu : dot (⟨cy * cp, sp, sy * cp⟩ : Vec3) ⟨cy * cp, sp, sy * cp⟩ = 1 := by
    simp only [dot]
    linear_combination cp ^ 2 * hy + hp
  have hcr : cross (⟨cy * cp, sp, sy * cp⟩ : Vec3) ⟨0, 1, 0⟩ = ⟨-(sy * cp), 0, cy * cp⟩ := by
    simp only [cross]
    norm_num
  rw [hcr]
  have hr0 : dot (⟨-(sy * cp), 0, cy * cp⟩ : Vec3) ⟨-(sy * cp), 0, cy * cp⟩ = cp ^ 2 := by
    simp only [dot]
    linear_combination cp ^ 2 * hy
  have habs : |cp| ≠ 0 := abs_ne_zero.mpr hcp
  have hlen : length (⟨-(sy * cp), 0, cy * cp⟩ : Vec3) = |cp| := by
    rw [length, hr0, Real.sqrt_sq_eq_abs]
  have hrn : normalize (⟨-(sy * cp), 0, cy * cp⟩ : Vec3) =
      scale |cp|⁻¹ ⟨-(sy * cp), 0, cy * cp⟩ := by
    rw [normalize, hlen]
  rw [hrn]
  have hrr : dot (scale |cp|⁻¹ (⟨-(sy * cp), 0, cy * cp⟩ : Vec3))
      (scale |cp|⁻¹ ⟨-(sy * cp), 0, cy * cp⟩) = 1 := by
    rw [dot_scale_left, dot_scale_right, hr0, ← sq_abs cp]
    field_simp
    ring
  have hfr : dot (⟨cy * cp, sp, sy * cp⟩ : Vec3)
      (scale |cp|⁻¹ ⟨-(sy * cp), 0, cy * cp⟩) = 0 := by
    rw [dot_scale_right]
    simp only [dot]
    ring
  have huu : dot (cross (scale |cp|⁻¹ (⟨-(sy * cp), 0, cy * cp⟩ : Vec3)) ⟨cy * cp, sp, sy * cp⟩)
      (cross (scale |cp|⁻¹ ⟨-(sy * cp), 0, cy * cp⟩) ⟨cy * cp, sp, sy * cp⟩) = 1 := by
    rw [dot_cross_self, hrr, hfu, dot_comm _ (⟨cy * cp, sp, sy * cp⟩ : Vec3), hfr]
    norm_num
  have hun : normalize (cross (scale |cp|⁻¹ (⟨-(sy * cp), 0, cy * cp⟩ : Vec3))
      ⟨cy * cp, sp, sy * cp⟩) =
      cross (scale |cp|⁻¹ ⟨-(sy * cp), 0, cy * cp⟩) ⟨cy * cp, sp, sy * cp⟩ :=
    normalize_of_unit huu
  rw [hun]
  refine ⟨hfr, ?_, ?_, length_eq_one hfu, length_eq_one hrr, length_eq_one huu⟩
  · rw [dot_comm]
    exact dot_cross_right _ _
  · rw [dot_comm]
    exact dot_cross_left _ _

lemma updateView_orthonormal_aux (c : EditorCamera)
    (h : Real.cos (radians c.mPitch) ≠ 0) :
    Orthonormal3 (updateView c).mForwardDirection (updateView c).mRightDirection
      (updateView c).mUpDirection := by
  have := basis_orthonormal_aux (Real.cos (radians c.mYaw)) (Real.sin (radians c.mYaw))
    (Real.cos (radians c.mPitch)) (Real.sin (radians c.mPitch))
    (Real.sin_sq_add_cos_sq _) (Real.sin_sq_add_cos_sq _) h
  simpa only [updateView] using this

set_option maxHeartbeats 1000000 in
lemma onUpdate_true_pitch_bounds (s : EditorCamera) (dt : ℤ) (fl : CameraMovementFlags)
    (m : Vec2) :
    -89 ≤ (onUpdate s dt fl m true).mPitch ∧ (onUpdate s dt fl m true).mPitch ≤ 89 := by
  simp only [onUpdate, updateView, if_true, reduceIte]
  split_ifs <;> constructor <;> dsimp only <;> linarith

lemma cos_radians_ne_zero_of_bounds {p : ℝ} (h1 : -89 ≤ p) (h2 : p ≤ 89) :
    Real.cos (radians p) ≠ 0 := by
  refine ne_of_gt (Real.cos_pos_of_mem_Ioo ⟨?_, ?_⟩)
  · simp only [radians]
    nlinarith [Real.pi_pos]
  · simp only [radians]
    nlinarith [Real.pi_pos]

set_option maxHeartbeats 1000000 in
lemma onUpdate_true_orthonormal_aux (s : EditorCamera) (dt : ℤ)
    (fl : CameraMovementFlags) (m : Vec2) :
    Orthonormal3 (onUpdate s dt fl m true).mForwardDirection
      (onUpdate s dt fl m true).mRightDirection
      (onUpdate s dt fl m true).mUpDirection := by
  simp only [onUpdate, if_true, reduceIte]
  apply updateView_orthonormal_aux
  apply cos_radians_ne_zero_of_bounds <;> dsimp only <;> split_ifs <;> linarith

lemma vadd_def (a b : Vec3) : a + b = ⟨a.x + b.x, a.y + b.y, a.z + b.z⟩ := rfl

lemma vsub_def (a b : Vec3) : a - b = ⟨a.x - b.x, a.y - b.y, a.z - b.z⟩ := rfl

lemma initCamera_forward : initCamera.mForwardDirection = ⟨0, 0, -1⟩ := by
  simp only [initCamera, updateView, updateProjection, initMembers]
  rw [cos_radians_neg90, sin_radians_neg90, radians_zero, Real.cos_zero, Real.sin_zero]
  norm_num
  exact normalize_of_unit (by norm_num [dot])

lemma initCamera_right : initCamera.mRightDirection = ⟨1, 0, 0⟩ := by
  simp only [initCamera, updateView, updateProjection, initMembers]
  rw [cos_radians_neg90, sin_radians_neg90, radians_zero, Real.cos_zero, Real.sin_zero]
  norm_num
  rw [normalize_of_unit (by norm_num [dot] : dot (⟨0, 0, -1⟩ : Vec3) ⟨0, 0, -1⟩ = 1)]
  rw [show cross (⟨0, 0, -1⟩ : Vec3) ⟨0, 1, 0⟩ = ⟨1, 0, 0⟩ by norm_num [cross]]
  exact normalize_of_unit (by norm_num [dot])

lemma initCamera_up : initCamera.mUpDirection = ⟨0, 1, 0⟩ := by
  simp only [initCamera, updateView, updateProjection, initMembers]
  rw [cos_radians_neg90, sin_radians_neg90, radians_zero, Real.cos_zero, Real.sin_zero]
  norm_num
  rw [normalize_of_unit (by norm_num [dot] : dot (⟨0, 0, -1⟩ : Vec3) ⟨0, 0, -1⟩ = 1)]
  rw [show cross (⟨0, 0, -1⟩ : Vec3) ⟨0, 1, 0⟩ = ⟨1, 0, 0⟩ by norm_num [cross]]
  rw [normalize_of_unit (by norm_num [dot] : dot (⟨1, 0, 0⟩ : Vec3) ⟨1, 0, 0⟩ = 1)]
  rw [show cross (⟨1, 0, 0⟩ : Vec3) ⟨0, 0, -1⟩ = ⟨0, 1, 0⟩ by norm_num [cross]]
  exact normalize_of_unit (by norm_num [dot])

lemma initCamera_view : initCamera.mView = lookAt ⟨0, 0, 5⟩ ⟨0, 0, 4⟩ ⟨0, 1, 0⟩ := by
  simp only [initCamera, updateView, updateProjection, initMembers]
  rw [cos_radians_neg90, sin_radians_neg90, radians_zero, Real.cos_zero, Real.sin_zero]
  norm_num
  rw [normalize_of_unit (by norm_num [dot] : dot (⟨0, 0, -1⟩ : Vec3) ⟨0, 0, -1⟩ = 1)]
  rw [show cross (⟨0, 0, -1⟩ : Vec3) ⟨0, 1, 0⟩ = ⟨1, 0, 0⟩ by norm_num [cross]]
  rw [normalize_of_unit (by norm_num [dot] : dot (⟨1, 0, 0⟩ : Vec3) ⟨1, 0, 0⟩ = 1)]
  rw [show cross (⟨1, 0, 0⟩ : Vec3) ⟨0, 0, -1⟩ = ⟨0, 1, 0⟩ by norm_num [cross]]
  rw [normalize_of_unit (by norm_num [dot] : dot (⟨0, 1, 0⟩ : Vec3) ⟨0, 1, 0⟩ = 1)]
  rw [show (⟨0, 0, 5⟩ : Vec3) + ⟨0, 0, -1⟩ = ⟨0, 0, 4⟩ by rw [vadd_def]; norm_num]

lemma initCamera_view_col3 : initCamera.mView.col3 = ⟨0, 0, -5, 1⟩ := by
  rw [initCamera_view]
  simp only [lookAt]
  rw [show (⟨0, 0, 4⟩ : Vec3) - ⟨0, 0, 5⟩ = ⟨0, 0, -1⟩ by rw [vsub_def]; norm_num]
  rw [normalize_of_unit (by norm_num [dot] : dot (⟨0, 0, -1⟩ : Vec3) ⟨0, 0, -1⟩ = 1)]
  rw [show cross (⟨0, 0, -1⟩ : Vec3) ⟨0, 1, 0⟩ = ⟨1, 0, 0⟩ by norm_num [cross]]
  rw [normalize_of_unit (by norm_num [dot] : dot (⟨1, 0, 0⟩ : Vec3) ⟨1, 0, 0⟩ = 1)]
  rw [show cross (⟨1, 0, 0⟩ : Vec3) ⟨0, 0, -1⟩ = ⟨0, 1, 0⟩ by norm_num [cross]]
  norm_num [dot]

set_option maxHeartbeats 2000000 in
lemma movement_chain_eq (b1 b2 b3 b4 b5 b6 : Bool) (k : ℝ) (f r u p : Vec3) :
    (p +
      (let mv0 : Vec3 := ⟨0, 0, 0⟩
       let mv1 := if b1 then mv0 + scale k f else mv0
       let mv2 := if b2 then mv1 - scale k f else mv1
       let mv3 := if b3 then mv2 - scale k r else mv2
       let mv4 := if b4 then mv3 + scale k r else mv3
       let mv5 := if b5 then mv4 + scale k u else mv4
       if b6 then mv5 - scale k u else mv5)) =
    p +
      ((if b1 then scale k f else ⟨0, 0, 0⟩) -
       (if b2 then scale k f else ⟨0, 0, 0⟩) -
       (if b3 then scale k r else ⟨0, 0, 0⟩) +
       (if b4 then scale k r else ⟨0, 0, 0⟩) +
       (if b5 then scale k u else ⟨0, 0, 0⟩) -
       (if b6 then scale k u else ⟨0, 0, 0⟩)) := by
  cases b1 <;> cases b2 <;> cases b3 <;> cases b4 <;> cases b5 <;> cases b6 <;>
    simp only [Bool.false_eq_true, if_false, if_true, reduceIte] <;>
    ext <;> simp only [vadd_def, vsub_def, scale] <;> ring

lemma cot_eq_tan_pi_div_two_sub (y : ℝ) :
    Real.cos y / Real.sin y = Real.tan (π / 2 - y) := by
  rw [Real.tan_pi_div_two_sub, Real.tan_eq_sin_div_cos, inv_div]

lemma atan2_scaled_cos_sin {y c : ℝ} (h1 : -(π / 2) < y) (h2 : y < π / 2) (hc : 0 < c) :
    atan2 (c * Real.cos y) (c * Real.sin y) = π / 2 - y := by
  have hcy : 0 < Real.cos y := Real.cos_pos_of_mem_Ioo ⟨h1, h2⟩
  rcases lt_trichotomy (Real.sin y) 0 with hs | hs | hs
  · -- sin y < 0, so y < 0 and atan2 takes the x < 0, numerator ≥ 0 branch
    have hy0 : y < 0 := by
      by_contra hge
      push_neg at hge
      exact absurd (Real.sin_nonneg_of_nonneg_of_le_pi hge
        (by linarith [Real.pi_pos])) (not_le.mpr hs)
    have hx : c * Real.sin y < 0 := mul_neg_of_pos_of_neg hc hs
    have hyarg : 0 ≤ c * Real.cos y := le_of_lt (mul_pos hc hcy)
    rw [atan2, if_neg (by linarith), if_neg (by linarith), if_pos hyarg]
    rw [mul_div_mul_left _ _ (ne_of_gt hc), cot_eq_tan_pi_div_two_sub]
    rw [show π / 2 - y = -(π / 2) - y + π by ring, Real.tan_add_pi]
    rw [Real.arctan_tan (by linarith) (by linarith)]
  · -- sin y = 0, so y = 0 and atan2 takes the x = 0, 0 < numerator branch
    have hy0 : y = 0 := (Real.sin_eq_zero_iff_of_lt_of_lt
      (by linarith [Real.pi_pos]) (by linarith [Real.pi_pos])).mp hs
    subst hy0
    rw [Real.cos_zero, Real.sin_zero, mul_zero, mul_one, atan2]
    norm_num [hc]
  · -- 0 < sin y, so atan2 takes the 0 < x branch
    have hx : 0 < c * Real.sin y := mul_pos hc hs
    have hy0 : 0 < y := by
      by_contra hge
      push_neg at hge
      exact absurd (Real.sin_nonpos_of_nonnpos_of_neg_pi_le hge
        (by linarith [Real.pi_pos])) (not_le.mpr hs)
    rw [atan2, if_pos hx]
    rw [mul_div_mul_left _ _ (ne_of_gt hc), cot_eq_tan_pi_div_two_sub]
    rw [Real.arctan_tan (by linarith) (by linarith)]

lemma atan2_zero_zero : atan2 0 0 = 0 := by
  simp [atan2]

lemma degrees_zero : degrees 0 = 0 := by
  simp [degrees]

lemma degrees_pi_div_two : degrees (π / 2) = 90 := by
  rw [degrees]
  field_simp
  ring

lemma updateView_pole_right (c : EditorCamera) (hy : c.mYaw = 0) (hp : c.mPitch = 90) :
    (updateView c).mRightDirection = ⟨0, 0, 0⟩ := by
  dsimp only [updateView]
  rw [hy, hp, radians_zero, radians_ninety, Real.cos_zero, Real.sin_zero,
    Real.cos_pi_div_two, Real.sin_pi_div_two]
  norm_num
  rw [normalize_of_unit (by norm_num [dot] : dot (⟨0, 1, 0⟩ : Vec3) ⟨0, 1, 0⟩ = 1)]
  rw [show cross (⟨0, 1, 0⟩ : Vec3) ⟨0, 1, 0⟩ = ⟨0, 0, 0⟩ by norm_num [cross]]
  rw [normalize]
  norm_num [length, dot, scale]

lemma basisFromYawPitch_col2 (Y P : ℝ) :
    (basisFromYawPitch Y P).col2 =
      ⟨Real.cos (radians Y) * Real.cos (radians P), Real.sin (radians P),
       Real.sin (radians Y) * Real.cos (radians P)⟩ := by
  dsimp only [basisFromYawPitch]
  refine normalize_of_unit ?_
  simp only [dot]
  linear_combination (Real.cos (radians P)) ^ 2 * Real.sin_sq_add_cos_sq (radians Y) +
    Real.sin_sq_add_cos_sq (radians P)

lemma setOrientation_recovery (Y P : ℝ) (hY1 : -90 < Y) (hY2 : Y < 90)
    (hP1 : -90 < P) (hP2 : P < 90) (s : EditorCamera) :
    (setOrientation (basisFromYawPitch Y P) s).mYaw = 90 - Y ∧
      (setOrientation (basisFromYawPitch Y P) s).mPitch = -P := by
  have hry1 : -(π / 2) < radians Y := by simp only [radians]; nlinarith [Real.pi_pos]
  have hry2 : radians Y < π / 2 := by simp only [radians]; nlinarith [Real.pi_pos]
  have hrp1 : -(π / 2) < radians P := by simp only [radians]; nlinarith [Real.pi_pos]
  have hrp2 : radians P < π / 2 := by simp only [radians]; nlinarith [Real.pi_pos]
  have hc : 0 < Real.cos (radians P) := Real.cos_pos_of_mem_Ioo ⟨hrp1, hrp2⟩
  constructor
  · show degrees
      (atan2 (basisFromYawPitch Y P).col2.x (basisFromYawPitch Y P).col2.z) = 90 - Y
    rw [basisFromYawPitch_col2]
    dsimp only
    rw [mul_comm (Real.cos (radians Y)) (Real.cos (radians P)),
      mul_comm (Real.sin (radians Y)) (Real.cos (radians P)),
      atan2_scaled_cos_sin hry1 hry2 hc]
    simp only [degrees, radians]
    field_simp
    ring
  · show degrees (Real.arcsin (-(basisFromYawPitch Y P).col2.y)) = -P
    rw [basisFromYawPitch_col2]
    dsimp only
    rw [← Real.sin_neg, Real.arcsin_sin (by linarith) (by linarith)]
    simp only [degrees, radians]
    field_simp
    ring

set_option maxHeartbeats 2000000 in
lemma onUpdate_position (s : EditorCamera) (dt : ℤ) (fl : CameraMovementFlags)
    (m : Vec2) (r : Bool) :
    (onUpdate s dt fl m r).mPosition =
      s.mPosition +
        ((if fl.HasFlag .Forward then
            scale (s.mMoveSpeed * ((dt : ℝ) / 1000000000)) s.mForwardDirection else ⟨0, 0, 0⟩) -
         (if fl.HasFlag .Backward then
            scale (s.mMoveSpeed * ((dt : ℝ) / 1000000000)) s.mForwardDirection else ⟨0, 0, 0⟩) -
         (if fl.HasFlag .Left then
            scale (s.mMoveSpeed * ((dt : ℝ) / 1000000000)) s.mRightDirection else ⟨0, 0, 0⟩) +
         (if fl.HasFlag .Right then
            scale (s.mMoveSpeed * ((dt : ℝ) / 1000000000)) s.mRightDirection else ⟨0, 0, 0⟩) +
         (if fl.HasFlag .Up then
            scale (s.mMoveSpeed * ((dt : ℝ) / 1000000000)) s.mUpDirection else ⟨0, 0, 0⟩) -
         (if fl.HasFlag .Down then
            scale (s.mMoveSpeed * ((dt : ℝ) / 1000000000)) s.mUpDirection else ⟨0, 0, 0⟩)) := by
  cases r <;> dsimp only [onUpdate, updateView] <;>
    exact movement_chain_eq (fl.HasFlag .Forward) (fl.HasFlag .Backward) (fl.HasFlag .Left)
      (fl.HasFlag .Right) (fl.HasFlag .Up) (fl.HasFlag .Down)
      (s.mMoveSpeed * ((dt : ℝ) / 1000000000)) s.mForwardDirection s.mRightDirection
      s.mUpDirection s.mPosition

lemma scenario_position :
    (onUpdate initCamera 1000000000 ⟨1⟩ ⟨0, 0⟩ false).mPosition = ⟨0, 0, 0⟩ := by
  rw [onUpdate_position, initCamera_forward,
    show initCamera.mPosition = (⟨0, 0, 5⟩ : Vec3) from rfl,
    show initCamera.mMoveSpeed = (5 : ℝ) from rfl]
  simp only [show (⟨1⟩ : CameraMovementFlags).HasFlag CameraMovement.Forward = true from rfl,
    show (⟨1⟩ : CameraMovementFlags).HasFlag CameraMovement.Backward = false from rfl,
    show (⟨1⟩ : CameraMovementFlags).HasFlag CameraMovement.Left = false from rfl,
    show (⟨1⟩ : CameraMovementFlags).HasFlag CameraMovement.Right = false from rfl,
    show (⟨1⟩ : CameraMovementFlags).HasFlag CameraMovement.Up = false from rfl,
    show (⟨1⟩ : CameraMovementFlags).HasFlag CameraMovement.Down = false from rfl,
    Bool.false_eq_true, if_false, if_true, reduceIte]
  norm_num [vadd_def, vsub_def, scale]

/-- C5: `OnUpdate` translates the position by the sum, over the active flags,
of the matching basis direction scaled by `mMoveSpeed * dt` (Forward/Right/Up
added, Backward/Left/Down subtracted); concretely, the default-constructed
camera after `OnUpdate(1s, {Forward}, (0,0), rotate=false)` with the default
linear speed `5` ends at position `(0,0,0)`. -/
theorem C5_movement_translation :
    (∀ (s : EditorCamera) (dt : ℤ) (fl : CameraMovementFlags) (m : Vec2) (r : Bool),
      (onUpdate s dt fl m r).mPosition =
        s.mPosition +
          ((if fl.HasFlag .Forward then
              scale (s.mMoveSpeed * ((dt : ℝ) / 1000000000)) s.mForwardDirection else ⟨0, 0, 0⟩) -
           (if fl.HasFlag .Backward then
              scale (s.mMoveSpeed * ((dt : ℝ) / 1000000000)) s.mForwardDirection else ⟨0, 0, 0⟩) -
           (if fl.HasFlag .Left then
              scale (s.mMoveSpeed * ((dt : ℝ) / 1000000000)) s.mRightDirection else ⟨0, 0, 0⟩) +
           (if fl.HasFlag .Right then
              scale (s.mMoveSpeed * ((dt : ℝ) / 1000000000)) s.mRightDirection else ⟨0, 0, 0⟩) +
           (if fl.HasFlag .Up then
              scale (s.mMoveSpeed * ((dt : ℝ) / 1000000000)) s.mUpDirection else ⟨0, 0, 0⟩) -
           (if fl.HasFlag .Down then
              scale (s.mMoveSpeed * ((dt : ℝ) / 1000000000)) s.mUpDirection else ⟨0, 0, 0⟩))) ∧
    (onUpdate initCamera 1000000000 ⟨1⟩ ⟨0, 0⟩ false).mPosition = ⟨0, 0, 0⟩ :=
  ⟨onUpdate_position, scenario_position⟩

/-- C6: with speed and orientation held fixed, the displacement produced by
`OnUpdate` with Forward and Right both active is the vector sum of the two
single-flag displacements for the same `dt` (flag masks 9 = Forward|Right,
1 = Forward, 8 = Right). -/
theorem C6_movement_additive (s : EditorCamera) (dt : ℤ) (m : Vec2) (r : Bool) :
    (onUpdate s dt ⟨9⟩ m r).mPosition - s.mPosition =
      ((onUpdate s dt ⟨1⟩ m r).mPosition - s.mPosition) +
        ((onUpdate s dt ⟨8⟩ m r).mPosition - s.mPosition) := by
  rw [onUpdate_position, onUpdate_position, onUpdate_position]
  simp only [show (⟨9⟩ : CameraMovementFlags).HasFlag CameraMovement.Forward = true from rfl,
    show (⟨9⟩ : CameraMovementFlags).HasFlag CameraMovement.Backward = false from rfl,
    show (⟨9⟩ : CameraMovementFlags).HasFlag CameraMovement.Left = false from rfl,
    show (⟨9⟩ : CameraMovementFlags).HasFlag CameraMovement.Right = true from rfl,
    show (⟨9⟩ : CameraMovementFlags).HasFlag CameraMovement.Up = false from rfl,
    show (⟨9⟩ : CameraMovementFlags).HasFlag CameraMovement.Down = false from rfl,
    show (⟨1⟩ : CameraMovementFlags).HasFlag CameraMovement.Forward = true from rfl,
    show (⟨1⟩ : CameraMovementFlags).HasFlag CameraMovement.Backward = false from rfl,
    show (⟨1⟩ : CameraMovementFlags).HasFlag CameraMovement.Left = false from rfl,
    show (⟨1⟩ : CameraMovementFlags).HasFlag CameraMovement.Right = false from rfl,
    show (⟨1⟩ : CameraMovementFlags).HasFlag CameraMovement.Up = false from rfl,
    show (⟨1⟩ : CameraMovementFlags).HasFlag CameraMovement.Down = false from rfl,
    show (⟨8⟩ : CameraMovementFlags).HasFlag CameraMovement.Forward = false from rfl,
    show (⟨8⟩ : CameraMovementFlags).HasFlag CameraMovement.Backward = false from rfl,
    show (⟨8⟩ : CameraMovementFlags).HasFlag CameraMovement.Left = false from rfl,
    show (⟨8⟩ : CameraMovementFlags).HasFlag CameraMovement.Right = true from rfl,
    show (⟨8⟩ : CameraMovementFlags).HasFlag CameraMovement.Up = false from rfl,
    show (⟨8⟩ : CameraMovementFlags).HasFlag CameraMovement.Down = false from rfl,
    Bool.false_eq_true, if_false, if_true, reduceIte]
  ext <;> simp only [vadd_def, vsub_def, scale] <;> ring

/-- C7: `SetCameraSpec` stores the supplied spec and recomputes only the
projection matrix; the view matrix and every other piece of camera state are
left unchanged. -/
theorem C7_setCameraSpec_only_projection (sp : EditorCameraSpecs) (s : EditorCamera) :
    (setCameraSpec sp s).mCameraSpecs = sp ∧
    (setCameraSpec sp s).mProjection =
      perspective (radians sp.Fov) sp.Aspect sp.NearClip sp.FarClip ∧
    (setCameraSpec sp s).mView = s.mView ∧
    (setCameraSpec sp s).mPosition = s.mPosition ∧
    (setCameraSpec sp s).mYaw = s.mYaw ∧
    (setCameraSpec sp s).mPitch = s.mPitch ∧
    (setCameraSpec sp s).mRoll = s.mRoll ∧
    (setCameraSpec sp s).mForwardDirection = s.mForwardDirection ∧
    (setCameraSpec sp s).mRightDirection = s.mRightDirection ∧
    (setCameraSpec sp s).mUpDirection = s.mUpDirection ∧
    (setCameraSpec sp s).mMoveSpeed = s.mMoveSpeed ∧
    (setCameraSpec sp s).mRotationSpeed = s.mRotationSpeed ∧
    (setCameraSpec sp s).mLastMouseX = s.mLastMouseX ∧
    (setCameraSpec sp s).mLastMouseY = s.mLastMouseY :=
  ⟨rfl, rfl, rfl, rfl, rfl, rfl, rfl, rfl, rfl, rfl, rfl, rfl, rfl, rfl⟩

/-- C8: `OnUpdate` with `rotate = false` leaves the last-seen mouse
coordinates, yaw, pitch, roll, the basis vectors and the view matrix exactly
as they were; only the position may change. -/
theorem C8_onUpdate_norotate_freezes (s : EditorCamera) (dt : ℤ)
    (fl : CameraMovementFlags) (m : Vec2) :
    (onUpdate s dt fl m false).mLastMouseX = s.mLastMouseX ∧
    (onUpdate s dt fl m false).mLastMouseY = s.mLastMouseY ∧
    (onUpdate s dt fl m false).mYaw = s.mYaw ∧
    (onUpdate s dt fl m false).mPitch = s.mPitch ∧
    (onUpdate s dt fl m false).mRoll = s.mRoll ∧
    (onUpdate s dt fl m false).mForwardDirection = s.mForwardDirection ∧
    (onUpdate s dt fl m false).mRightDirection = s.mRightDirection ∧
    (onUpdate s dt fl m false).mUpDirection = s.mUpDirection ∧
    (onUpdate s dt fl m false).mView = s.mView :=
  ⟨rfl, rfl, rfl, rfl, rfl, rfl, rfl, rfl, rfl⟩

/-- C4: starting from a pitch in [-89, 89], any sequence of `OnUpdate` calls
with `rotate = true` and arbitrary mouse deltas keeps the pitch in [-89, 89];
overshooting past a boundary is clamped away each frame. -/
theorem C4_pitch_clamped (s : EditorCamera) (h1 : -89 ≤ s.mPitch) (h2 : s.mPitch ≤ 89)
    (l : List (ℤ × CameraMovementFlags × Vec2)) :
    -89 ≤ (applyUpdates s l).mPitch ∧ (applyUpdates s l).mPitch ≤ 89 := by
  induction l generalizing s with
  | nil => exact ⟨h1, h2⟩
  | cons hd tl ih =>
    have hb := onUpdate_true_pitch_bounds s hd.1 hd.2.1 hd.2.2
    exact ih (onUpdate s hd.1 hd.2.1 hd.2.2 true) hb.1 hb.2

/-- Witness for C4: the default camera (pitch 0) stays clamped through a
mouse swing that drives pitch far past -89 and then far back up. -/
theorem C4_pitch_clamped_witness :
    (-89 ≤ initCamera.mPitch ∧ initCamera.mPitch ≤ 89) ∧
      (-89 ≤ (applyUpdates initCamera
          [(1000000000, ⟨0⟩, ⟨0, 100000⟩), (1000000000, ⟨0⟩, ⟨0, -100000⟩)]).mPitch ∧
        (applyUpdates initCamera
          [(1000000000, ⟨0⟩, ⟨0, 100000⟩), (1000000000, ⟨0⟩, ⟨0, -100000⟩)]).mPitch ≤ 89) := by
  have h1 : -89 ≤ initCamera.mPitch := by
    rw [show initCamera.mPitch = 0 from rfl]; norm_num
  have h2 : initCamera.mPitch ≤ 89 := by
    rw [show initCamera.mPitch = 0 from rfl]; norm_num
  exact ⟨⟨h1, h2⟩, C4_pitch_clamped initCamera h1 h2 _⟩

/-- C3 (amended): the basis recomputed by `UpdateView` is orthonormal whenever
the pitch it reads has nonzero cosine; in particular every `OnUpdate` with
`rotate = true` produces an orthonormal basis, because its clamp forces pitch
into [-89, 89].  (The original claim fails for states reached through
`SetOrientation` with pitch exactly 90, where the cross product with world-up
degenerates; see the counterexample.) -/
theorem C3_orthonormal_amended :
    (∀ c : EditorCamera, Real.cos (radians c.mPitch) ≠ 0 →
      Orthonormal3 (updateView c).mForwardDirection (updateView c).mRightDirection
        (updateView c).mUpDirection) ∧
    (∀ (s : EditorCamera) (dt : ℤ) (fl : CameraMovementFlags) (m : Vec2),
      Orthonormal3 (onUpdate s dt fl m true).mForwardDirection
        (onUpdate s dt fl m true).mRightDirection
        (onUpdate s dt fl m true).mUpDirection) :=
  ⟨updateView_orthonormal_aux, onUpdate_true_orthonormal_aux⟩

/-- Witness for C3: the default-constructed camera (pitch 0) satisfies the
cosine hypothesis and has an orthonormal basis. -/
theorem C3_orthonormal_amended_witness :
    Real.cos (radians (updateProjection initMembers).mPitch) ≠ 0 ∧
      Orthonormal3 initCamera.mForwardDirection initCamera.mRightDirection
        initCamera.mUpDirection := by
  have hc : Real.cos (radians (updateProjection initMembers).mPitch) ≠ 0 := by
    rw [show (updateProjection initMembers).mPitch = 0 from rfl, radians_zero,
      Real.cos_zero]
    norm_num
  exact ⟨hc, C3_orthonormal_amended.1 (updateProjection initMembers) hc⟩

/-- Counterexample to C3 as stated: `SetOrientation` with the orthonormal
basis whose z-column is (0,-1,0) stores pitch 90, and the following view
recompute collapses the right vector to zero, which is not unit length. -/
theorem C3_orthonormal_counterexample :
    length (setOrientation ⟨⟨1, 0, 0⟩, ⟨0, 0, 1⟩, ⟨0, -1, 0⟩⟩
      initCamera).mRightDirection ≠ 1 := by
  have hr : (setOrientation ⟨⟨1, 0, 0⟩, ⟨0, 0, 1⟩, ⟨0, -1, 0⟩⟩
      initCamera).mRightDirection = ⟨0, 0, 0⟩ := by
    dsimp only [setOrientation]
    refine updateView_pole_right _ ?_ ?_
    · dsimp only
      rw [atan2_zero_zero, degrees_zero]
    · dsimp only
      rw [show -(-1 : ℝ) = 1 by norm_num, Real.arcsin_one, degrees_pi_div_two]
  rw [hr, show length ⟨0, 0, 0⟩ = 0 by norm_num [length, dot]]
  norm_num

/-- Counterexample to C1 as stated: the default camera moved forward for one
second with `rotate = false` changes position, but the resulting view matrix
is NOT the look-at matrix built from the new position with the old basis: the
view matrix is simply not recomputed (its translation entry still reflects the
old position (0,0,5), value -5, while the claimed look-at has 0). -/
theorem C1_view_stale_counterexample :
    (onUpdate initCamera 1000000000 ⟨1⟩ ⟨0, 0⟩ false).mPosition ≠ initCamera.mPosition ∧
      (onUpdate initCamera 1000000000 ⟨1⟩ ⟨0, 0⟩ false).mView ≠
        lookAt (onUpdate initCamera 1000000000 ⟨1⟩ ⟨0, 0⟩ false).mPosition
          ((onUpdate initCamera 1000000000 ⟨1⟩ ⟨0, 0⟩ false).mPosition +
            initCamera.mForwardDirection)
          initCamera.mUpDirection := by
  constructor
  · rw [scenario_position, show initCamera.mPosition = (⟨0, 0, 5⟩ : Vec3) from rfl]
    intro h
    have hz := congrArg Vec3.z h
    norm_num at hz
  · rw [scenario_position, initCamera_forward, initCamera_up]
    intro h
    have hL : (onUpdate initCamera 1000000000 ⟨1⟩ ⟨0, 0⟩ false).mView.col3.z = -5 := by
      rw [show (onUpdate initCamera 1000000000 ⟨1⟩ ⟨0, 0⟩ false).mView =
        initCamera.mView from rfl, initCamera_view_col3]
    have hR : (lookAt ⟨0, 0, 0⟩ ((⟨0, 0, 0⟩ : Vec3) + ⟨0, 0, -1⟩) ⟨0, 1, 0⟩).col3.z = 0 := by
      rw [show (⟨0, 0, 0⟩ : Vec3) + ⟨0, 0, -1⟩ = ⟨0, 0, -1⟩ by rw [vadd_def]; norm_num]
      dsimp only [lookAt]
      rw [show (⟨0, 0, -1⟩ : Vec3) - ⟨0, 0, 0⟩ = ⟨0, 0, -1⟩ by rw [vsub_def]; norm_num]
      rw [normalize_of_unit (by norm_num [dot] : dot (⟨0, 0, -1⟩ : Vec3) ⟨0, 0, -1⟩ = 1)]
      norm_num [dot]
    rw [h, hR] at hL
    norm_num at hL

/-- C1 (amended): `OnUpdate` with `rotate = false` leaves the view matrix
entirely unchanged, so whenever the state's view was the look-at of its
position and basis before the call, the view after the call is still the
look-at of the OLD position and basis: it does not reflect the position
change. -/
theorem C1_view_unchanged_when_rotate_false (s : EditorCamera) (dt : ℤ)
    (fl : CameraMovementFlags) (m : Vec2)
    (h : s.mView = lookAt s.mPosition (s.mPosition + s.mForwardDirection) s.mUpDirection) :
    (onUpdate s dt fl m false).mView =
      lookAt s.mPosition (s.mPosition + s.mForwardDirection) s.mUpDirection :=
  h

/-- Witness for C1 (amended): the default-constructed camera's view is the
look-at of its pose, and it stays that (old-pose) look-at through a
`rotate = false` update. -/
theorem C1_view_unchanged_when_rotate_false_witness :
    (onUpdate initCamera 1000000000 ⟨1⟩ ⟨0, 0⟩ false).mView =
      lookAt initCamera.mPosition (initCamera.mPosition + initCamera.mForwardDirection)
        initCamera.mUpDirection :=
  C1_view_unchanged_when_rotate_false initCamera 1000000000 ⟨1⟩ ⟨0, 0⟩ rfl

/-- C2 (code bug): `UpdateProjection` feeds `glm::radians(mCameraSpecs.Fov)`
to `glm::perspective` even though `Fov` is already stored in radians (its
default is `glm::radians(45.0f)`), so the projection is the perspective
frustum of `Fov * pi / 180`, not of the supplied `Fov`: at the default spec
the two matrices differ. -/
theorem C2_projection_double_radians_bug :
    (∀ (sp : EditorCameraSpecs) (s : EditorCamera),
      (setCameraSpec sp s).mProjection =
        perspective (radians sp.Fov) sp.Aspect sp.NearClip sp.FarClip) ∧
    (∀ s : EditorCamera,
      (setCameraSpec defaultSpecs s).mProjection ≠
        perspective defaultSpecs.Fov defaultSpecs.Aspect defaultSpecs.NearClip
          defaultSpecs.FarClip) := by
  refine ⟨fun sp s => rfl, fun s h => ?_⟩
  have hy := congrArg (fun mm => mm.col1.y) h
  dsimp only [setCameraSpec, updateProjection, perspective, defaultSpecs] at hy
  rw [show radians (radians 45) / 2 = π ^ 2 / 1440 by simp only [radians]; ring,
    show radians 45 / 2 = π / 8 by simp only [radians]; ring] at hy
  have h0 : (0 : ℝ) < π ^ 2 / 1440 := by positivity
  have hpp : π * π < 3.15 * π := mul_lt_mul_of_pos_right Real.pi_lt_d2 Real.pi_pos
  have hpp2 : 3.15 * π < 180 * π :=
    mul_lt_mul_of_pos_right (by norm_num) Real.pi_pos
  have h180 : π ^ 2 < 180 * π := by rw [pow_two]; linarith
  have hab : π ^ 2 / 1440 < π / 8 := by linarith
  have hb2 : π / 8 < π / 2 := by linarith [Real.pi_pos]
  have hta : 0 < Real.tan (π ^ 2 / 1440) :=
    Real.tan_pos_of_pos_of_lt_pi_div_two h0 (by linarith)
  have htlt : Real.tan (π ^ 2 / 1440) < Real.tan (π / 8) :=
    Real.tan_lt_tan_of_lt_of_lt_pi_div_two (by linarith) hb2 hab
  have hinv : (Real.tan (π / 8))⁻¹ < (Real.tan (π ^ 2 / 1440))⁻¹ :=
    inv_strictAnti₀ hta htlt
  rw [one_div, one_div] at hy
  rw [hy] at hinv
  exact lt_irrefl _ hinv

/-- Counterexample to C9 as stated: take the basis the view recompute derives
from yaw 0 / pitch 0 (its forward column is (1,0,0)); `SetOrientation` on that
basis stores yaw 90, not the yaw 0 the basis was built from, because the
decomposition formula `atan2(z.x, z.z)` assumes the transposed convention. -/
theorem C9_yaw_recovery_counterexample :
    (setOrientation (basisFromYawPitch 0 0) initCamera).mYaw ≠ 0 := by
  have h := (setOrientation_recovery 0 0 (by norm_num) (by norm_num) (by norm_num)
    (by norm_num) initCamera).1
  rw [h]
  norm_num

/-- C9 (amended): for a basis built by the view-recompute formula from yaw Y
and pitch P (both in (-90, 90)), `SetOrientation` stores yaw = 90 - Y and
pitch = -P (exact recovery only holds under the transposed axis convention);
and roll plays no part in the view recompute: changing the stored roll changes
neither the derived basis nor the view matrix. -/
theorem C9_orientation_decomposition_amended :
    (∀ (Y P : ℝ) (s : EditorCamera), -90 < Y → Y < 90 → -90 < P → P < 90 →
      (setOrientation (basisFromYawPitch Y P) s).mYaw = 90 - Y ∧
        (setOrientation (basisFromYawPitch Y P) s).mPitch = -P) ∧
    (∀ (c : EditorCamera) (r : ℝ),
      (updateView { c with mRoll := r }).mForwardDirection =
          (updateView c).mForwardDirection ∧
        (updateView { c with mRoll := r }).mRightDirection =
          (updateView c).mRightDirection ∧
        (updateView { c with mRoll := r }).mUpDirection = (updateView c).mUpDirection ∧
        (updateView { c with mRoll := r }).mView = (updateView c).mView) :=
  ⟨fun Y P s h1 h2 h3 h4 => setOrientation_recovery Y P h1 h2 h3 h4 s,
   fun _ _ => ⟨rfl, rfl, rfl, rfl⟩⟩

/-- Witness for C9 (amended): at yaw 10, pitch 20 the stored angles are 80 and
-20. -/
theorem C9_orientation_decomposition_amended_witness :
    (setOrientation (basisFromYawPitch 10 20) initCamera).mYaw = 90 - 10 ∧
      (setOrientation (basisFromYawPitch 10 20) initCamera).mPitch = -20 :=
  C9_orientation_decomposition_amended.1 10 20 initCamera (by norm_num) (by norm_num)
    (by norm_num) (by norm_num)

/-- C10: `SetOrientation` stores pitch = degrees(asin(-z.y)) with no clamping,
so the basis whose z-column is (0,-1,0) yields a stored pitch of exactly 90,
outside the [-89, 89] range that only `OnUpdate`'s rotation branch enforces. -/
theorem C10_setOrientation_unclamped_pitch :
    (∀ (B : Mat3) (s : EditorCamera),
      (setOrientation B s).mPitch = degrees (Real.arcsin (-(B.col2.y)))) ∧
    (∀ s : EditorCamera,
      (setOrientation ⟨⟨1, 0, 0⟩, ⟨0, 0, 1⟩, ⟨0, -1, 0⟩⟩ s).mPitch = 90 ∧
        89 < (setOrientation ⟨⟨1, 0, 0⟩, ⟨0, 0, 1⟩, ⟨0, -1, 0⟩⟩ s).mPitch) := by
  refine ⟨fun B s => rfl, fun s => ?_⟩
  have h : (setOrientation (⟨⟨1, 0, 0⟩, ⟨0, 0, 1⟩, ⟨0, -1, 0⟩⟩ : Mat3) s).mPitch = 90 := by
    show degrees (Real.arcsin (-(-1 : ℝ))) = 90
    rw [show -(-1 : ℝ) = 1 by norm_num, Real.arcsin_one, degrees_pi_div_two]
  exact ⟨h, by rw [h]; norm_num⟩

end Flame
